import Mathlib

/-!
Verification of the simulation core of a two-team top-down soccer game
(source: `src/main.rs`).

Embedding conventions, used consistently below:

* The source does all arithmetic in `f32`.  We embed its arithmetic over the
  exact rationals `ℚ` (and over `ℝ` where a logarithm is required), which is
  the arithmetic the accompanying specification reasons in.
* 2-d field-space vectors (`Vector2D<f32, PixelUnit>`) are embedded as
  `ℚ × ℚ`, using explicit componentwise operations.
* Every comparison of a Euclidean length `v.length()` against a nonnegative
  quantity in the source is embedded by comparing squares (`len2 v`, the
  squared length), which is an exact reformulation over an ordered field and
  keeps the development computable.  Each such spot is marked by a comment.
* A player's discretized facing direction is carried as the unit vector
  `Angle::to_vec(dir)` it denotes (the only use the possession machinery makes
  of it).
* The single spot where the source stores a value that is irrational over `ℚ`
  (the kicked ball's velocity `shoot_vec.normalize() * KICK_STRENGTH` for a
  targeted kick) is passed in as an explicit parameter `kickVel`; no claim
  below depends on that value.
-/

namespace Soccer

/-- Pairing each list element with its index (Rust's entity-store iteration
yields `(Entity, components)` pairs; the entity id of a player is its spawn
index). -/
def withIdxFrom (n : ℕ) : List α → List (ℕ × α)
  | [] => []
  | x :: l => (n, x) :: withIdxFrom (n + 1) l

/-- Pairing every element of a list with its position, starting at `0`. -/
def withIdx (l : List α) : List (ℕ × α) := withIdxFrom 0 l

/-- Field-space vector (source type `Vector = Vector2D<f32, PixelUnit>`). -/
abbrev Vec := ℚ × ℚ

/-- Componentwise vector addition. -/
def vadd (a b : Vec) : Vec := (a.1 + b.1, a.2 + b.2)

/-- Componentwise vector subtraction. -/
def vsub (a b : Vec) : Vec := (a.1 - b.1, a.2 - b.2)

/-- Scalar multiple of a vector. -/
def vscale (c : ℚ) (a : Vec) : Vec := (c * a.1, c * a.2)

/-- Squared Euclidean length of a vector; the source's `v.length()` is
`Real.sqrt (len2 v)`, and all its length comparisons are embedded through
`len2`. -/
def len2 (v : Vec) : ℚ := v.1 ^ 2 + v.2 ^ 2

/-- Dot product (source `Vector2D::dot`). -/
def dot (v w : Vec) : ℚ := v.1 * w.1 + v.2 * w.2

/-! ### Constants (source lines 46-114) -/

def LEVEL_W : ℚ := 1000
def LEVEL_H : ℚ := 1400
def HALF_LEVEL_W : ℚ := LEVEL_W / 2
def HALF_LEVEL_H : ℚ := LEVEL_H / 2
def HALF_PITCH_W : ℚ := 442
def HALF_PITCH_H : ℚ := 622
def GOAL_WIDTH : ℚ := 186
def GOAL_DEPTH : ℚ := 20
def HALF_GOAL_W : ℚ := GOAL_WIDTH / 2

def PITCH_BOUNDS_X : ℚ × ℚ := (HALF_LEVEL_W - HALF_PITCH_W, HALF_LEVEL_W + HALF_PITCH_W)
def PITCH_BOUNDS_Y : ℚ × ℚ := (HALF_LEVEL_H - HALF_PITCH_H, HALF_LEVEL_H + HALF_PITCH_H)
def GOAL_BOUNDS_X : ℚ × ℚ := (HALF_LEVEL_W - HALF_GOAL_W, HALF_LEVEL_W + HALF_GOAL_W)
def GOAL_BOUNDS_Y : ℚ × ℚ :=
  (HALF_LEVEL_H - HALF_PITCH_H - GOAL_DEPTH, HALF_LEVEL_H + HALF_PITCH_H + GOAL_DEPTH)

def AI_MIN_X : ℚ := 78
def AI_MAX_X : ℚ := LEVEL_W - 78
def AI_MIN_Y : ℚ := 98
def AI_MAX_Y : ℚ := LEVEL_H - 98

def KICK_STRENGTH : ℚ := 11.5
def DRAG : ℚ := 0.98

def LEAD_DISTANCE_1 : ℚ := 10
def LEAD_DISTANCE_2 : ℚ := 50

def DRIBBLE_DIST_X : ℚ := 18
def DRIBBLE_DIST_Y : ℚ := 16

def PLAYER_DEFAULT_SPEED : ℚ := 2
def PLAYER_INTERCEPT_BALL_SPEED : ℚ := 2.75
def LEAD_PLAYER_BASE_SPEED : ℚ := 2.9
def HUMAN_PLAYER_WITH_BALL_SPEED : ℚ := 3
def HUMAN_PLAYER_WITHOUT_BALL_SPEED : ℚ := 3.3

/-- Source player start template (lines 88-96). -/
def PLAYER_START_POS : List Vec :=
  [(350, 550), (650, 450), (200, 850), (500, 750), (800, 950), (350, 1250), (650, 1150)]

/-- Source `on_pitch` (lines 72-78): a point is legal for the ball if it is
inside the pitch rectangle or inside a goal-mouth rectangle. -/
def on_pitch (x y : ℚ) : Prop :=
  (PITCH_BOUNDS_X.1 ≤ x ∧ x < PITCH_BOUNDS_X.2 ∧ PITCH_BOUNDS_Y.1 ≤ y ∧ y < PITCH_BOUNDS_Y.2)
  ∨ (GOAL_BOUNDS_X.1 ≤ x ∧ x < GOAL_BOUNDS_X.2 ∧ GOAL_BOUNDS_Y.1 ≤ y ∧ y < GOAL_BOUNDS_Y.2)

instance (x y : ℚ) : Decidable (on_pitch x y) := by unfold on_pitch; infer_instance

/-- Source `allow_movement` (lines 919-932): whether a player may stand at
`(x, y)`. -/
def allow_movement (x y : ℚ) : Prop :=
  if |x - HALF_LEVEL_W| > HALF_LEVEL_W then
    -- trying to walk off the left or right side of the level
    False
  else if |x - HALF_LEVEL_W| < HALF_GOAL_W + 20 then
    -- within the goal-mouth band on the X axis
    |y - HALF_LEVEL_H| < HALF_PITCH_H
  else
    |y - HALF_LEVEL_H| < HALF_LEVEL_H

instance (x y : ℚ) : Decidable (allow_movement x y) := by
  unfold allow_movement; infer_instance

/-- Source `avg` (lines 859-865): snap-if-close damped average. -/
def avg (a b : ℚ) : ℚ := if |b - a| < 1 then b else (a + b) / 2

/-- Source `ball_physics` (lines 867-876): one free-flight step on one axis.
`pos += vel`; if this exits `[bounds.1, bounds.2]` the step is reverted and
the velocity negated; the returned velocity is scaled by `DRAG`. -/
def ball_physics (pos vel : ℚ) (bounds : ℚ × ℚ) : ℚ × ℚ :=
  let pos1 := pos + vel
  if pos1 < bounds.1 ∨ pos1 > bounds.2 then
    (pos1 - vel, -vel * DRAG)
  else
    (pos1, vel * DRAG)

/-- Source `steps` (lines 878-884): number of ticks for the ball to travel
`distance` under drag-only free flight
(`ceil (log_DRAG (1 - distance*(1-DRAG)/KICK_STRENGTH))` for `distance < 574`,
else the fixed value `190`).  The source computes `f32::log` and `ceil`; its
real-number meaning is the base-`DRAG` logarithm, embedded over `ℝ`. -/
noncomputable def steps (distance : ℝ) : ℤ :=
  if distance < 574 then
    ⌈Real.logb (DRAG : ℝ) (1 - distance * (1 - (DRAG : ℝ)) / (KICK_STRENGTH : ℝ))⌉
  else
    190

/-! ### Ball-interception simulation (source `set_player_targets`, lines 580-595)

When the ball is ownerless, each player simulates the ball's free flight
forward: `sim_ball_pos += sim_ball_vel; sim_ball_vel *= DRAG; frame += 1`,
looping while the simulated ball is farther than
`PLAYER_INTERCEPT_BALL_SPEED * frame + DRIBBLE_DIST_X` from the player and
the simulated speed exceeds `0.5`.  Both length comparisons are embedded by
their squares (the right-hand sides are nonnegative: `frame` counts loop
iterations, so `frame ≥ 0` in every execution). -/

/-- State of the interception simulation loop. -/
structure BallSim where
  pos : Vec
  vel : Vec
  frame : ℚ

/-- One iteration of the loop body of the interception simulation. -/
def sim_step (s : BallSim) : BallSim :=
  { pos := vadd s.pos s.vel, vel := vscale DRAG s.vel, frame := s.frame + 1 }

/-- The loop's continuation condition (squared embedding of
`(sim_ball_pos - pos).length() > 2.75*frame + 18 && sim_ball_vel.length() > 0.5`). -/
def sim_continue (playerPos : Vec) (s : BallSim) : Prop :=
  (PLAYER_INTERCEPT_BALL_SPEED * s.frame + DRIBBLE_DIST_X) ^ 2 < len2 (vsub s.pos playerPos)
  ∧ (1 / 2 : ℚ) ^ 2 < len2 s.vel

/-! ### Rust `Iterator::min_by` (used at source lines 429, 456, 719-721, 761-768, 797-805)

Rust's `min_by` folds over the iterator keeping the current minimum and
replaces it only on a strictly smaller element, so the FIRST minimal element
wins.  All the source's comparators order by a (possibly weighted) Euclidean
distance; comparing those distances is equivalent to comparing the rational
keys used here (squared lengths, or squared lengths divided by the square of
the 1-or-2 weight), so the fold below picks exactly the element the source
picks. -/

def pickMin (key : α → ℚ) : Option α → List α → Option α
  | acc, [] => acc
  | none, x :: l => pickMin key (some x) l
  | some m, x :: l => pickMin key (some (if key x < key m then x else m)) l

/-! ### Shot/pass target evaluation (source `update_ball`, lines 696-722) -/

/-- Source `ShootTarget`: a candidate kick target — the opposing goal centre
or a teammate (with its entity id). -/
inductive ShootTarget where
  | goal (p : Vec)
  | player (p : Vec) (id : ℕ)
deriving DecidableEq

/-- Source `ShootTarget::position`. -/
def ShootTarget.position : ShootTarget → Vec
  | goal p => p
  | player p _ => p

/-- Source retention filter (lines 711-718): drop a candidate if
`shoot_vec.length() <= 0.0 || shoot_vec.length() >= 300.0` (embedded squared),
keep it if `shoot_vec.normalize().dot(facing) > 0.8`.  The normalized dot
comparison is embedded root-free: for `‖v‖ > 0`,
`v·f/‖v‖ > 4/5 ↔ 0 < v·f ∧ 16·‖v‖² < 25·(v·f)²` (and at `‖v‖ = 0` the length
filter has already rejected the candidate). -/
def retain_target (ownerPos ownerFacing : Vec) (st : ShootTarget) : Prop :=
  ¬ (len2 (vsub st.position ownerPos) ≤ 0 ∨ 300 ^ 2 ≤ len2 (vsub st.position ownerPos))
  ∧ 0 < dot (vsub st.position ownerPos) ownerFacing
  ∧ 16 * len2 (vsub st.position ownerPos)
      < 25 * dot (vsub st.position ownerPos) ownerFacing ^ 2

instance (o f : Vec) (st : ShootTarget) : Decidable (retain_target o f st) := by
  unfold retain_target; infer_instance

/-- Source best-target selection (lines 719-721): `min_by` over the retained
candidates, ordered by distance to the owner. -/
def choose_shoot_target (ownerPos ownerFacing : Vec) (targets : List ShootTarget) :
    Option ShootTarget :=
  pickMin (fun st => len2 (vsub st.position ownerPos)) none
    (targets.filter (fun st => decide (retain_target ownerPos ownerFacing st)))

/-! ### Game state

The components of the entity store and the fields of `Game` that the
possession, scoring and switching machinery reads or writes.  A player's
entity id is its index in `players`, which is also the store's iteration
order.  The camera easing of `update_ball` (line 650) involves a Euclidean
normalization and is not read by any of the claims, so `cameraFocus` is only
written by the places the claims are about (`reset`). -/

/-- The per-player components used by the possession machinery:  `Position`,
`Animation` (as the unit facing vector), `Team`, `Timer`. -/
structure Player where
  pos : Vec
  facing : Vec
  team : Fin 2
  timer : ℤ
deriving DecidableEq

/-- Source `TeamInfo`: control source presence (`human`), score, active
player. -/
structure TeamInfo where
  human : Bool
  score : ℕ
  active : Option ℕ
deriving DecidableEq

/-- The fields of `Game` the claims concern, plus the ball's components. -/
structure GState where
  players : List Player
  ballPos : Vec
  ballVel : Option Vec
  ballTimer : ℤ
  ballOwner : Option ℕ
  kickoffPlayer : Option ℕ
  teams : TeamInfo × TeamInfo
  scoringTeam : ℕ
  scoreTimer : ℤ
  cameraFocus : Vec
  shootNow : Bool × Bool
  debugShootTarget : Option Vec
deriving DecidableEq

/-- Indexing `self.teams[t]`. -/
def getTeam (ts : TeamInfo × TeamInfo) (t : Fin 2) : TeamInfo :=
  if t = 0 then ts.1 else ts.2

/-- Writing `self.teams[t].active_player`. -/
def setActive (ts : TeamInfo × TeamInfo) (t : Fin 2) (id : Option ℕ) : TeamInfo × TeamInfo :=
  if t = 0 then ({ ts.1 with active := id }, ts.2) else (ts.1, { ts.2 with active := id })

/-- Player lookup (`self.world.get::<..>(id).unwrap()`); the default is never
reached in a well-formed match. -/
def getPlayer (ps : List Player) (i : ℕ) : Player :=
  ps.getD i ⟨(0, 0), (0, -1), 0, 0⟩

/-- Writing one player's `Timer` component. -/
def setTimer (ps : List Player) (i : ℕ) (t : ℤ) : List Player :=
  (withIdx ps).map (fun jp => if jp.1 = i then { jp.2 with timer := t } else jp.2)

/-! ### `update_ball` (source lines 600-780), split into its phases -/

/-- Phase 1 (lines 600-651): free-flight integration, or the dribble step with
possible possession forfeit.  Returns the updated state, the `owner_team`
captured for the acquisition scan, and the `new_ball_vector` to insert.
The dribble anchor uses `facing = (sin dir, -cos dir)`, so the source's
`ox + DRIBBLE_DIST_X*sin(dir)` and `oy - DRIBBLE_DIST_Y*cos(dir)` become
`ox + 18*facing.1` and `oy + 16*facing.2`. -/
def ball_move (s : GState) : GState × Option (Fin 2) × Option Vec :=
  match s.ballOwner with
  | none =>
    let bp := s.ballPos
    let boundsX := if |bp.2 - HALF_LEVEL_H| > HALF_PITCH_H then GOAL_BOUNDS_X else PITCH_BOUNDS_X
    let boundsY := if |bp.1 - HALF_LEVEL_W| < HALF_GOAL_W then GOAL_BOUNDS_Y else PITCH_BOUNDS_Y
    let vel := s.ballVel.getD (0, 0)
    let px := ball_physics bp.1 vel.1 boundsX
    let py := ball_physics bp.2 vel.2 boundsY
    ({ s with ballPos := (px.1, py.1), ballVel := some (px.2, py.2) }, none, none)
  | some oid =>
    let owner := getPlayer s.players oid
    let nx := avg s.ballPos.1 (owner.pos.1 + DRIBBLE_DIST_X * owner.facing.1)
    let ny := avg s.ballPos.2 (owner.pos.2 + DRIBBLE_DIST_Y * owner.facing.2)
    let s1 := { s with kickoffPlayer := none }
    if on_pitch nx ny then
      ({ s1 with ballPos := (nx, ny) }, some owner.team, none)
    else
      -- the owner dribbled off the pitch and loses the ball
      ({ s1 with ballOwner := none, players := setTimer s1.players oid 60 },
        some owner.team, some (vscale 3 owner.facing))

/-- Lines 653-655: insert the `new_ball_vector` if one was produced. -/
def insert_ball_vector (s : GState) : Option Vec → GState
  | none => s
  | some v => { s with ballVel := some v }

/-- The acquisition scan's accumulator: `self.ball_owner`, `old_owner`,
`self.teams`, `ball_was_acquired`. -/
structure ScanRes where
  owner : Option ℕ
  oldOwner : Option ℕ
  teams : TeamInfo × TeamInfo
  acquired : Bool
deriving DecidableEq

/-- Scan condition (lines 661-663): the candidate is not on the captured
owner's team (`owner_team.is_none() || owner_team.unwrap() != team.0`, i.e.
`ownerTeam ≠ some p.team`), is within the capture radius of the ball
(`(ball_pos - player_pos).length() <= DRIBBLE_DIST_X`, embedded squared), and
has `Timer` exactly `0`. -/
def qualifies (ownerTeam : Option (Fin 2)) (ballPos : Vec) (p : Player) : Prop :=
  ownerTeam ≠ some p.team ∧ len2 (vsub ballPos p.pos) ≤ DRIBBLE_DIST_X ^ 2 ∧ p.timer = 0

instance (ot : Option (Fin 2)) (bp : Vec) (p : Player) : Decidable (qualifies ot bp p) := by
  unfold qualifies; infer_instance

/-- One iteration of the acquisition scan (lines 659-671). -/
def scan_step (ot : Option (Fin 2)) (bp : Vec) (st : ScanRes) (ip : ℕ × Player) : ScanRes :=
  if qualifies ot bp ip.2 then
    { owner := some ip.1, oldOwner := st.owner,
      teams := setActive st.teams ip.2.team (some ip.1), acquired := true }
  else st

/-- The effect of the scan body on a qualifying player (used to characterize
the fold). -/
def scan_ustep (st : ScanRes) (ip : ℕ × Player) : ScanRes :=
  { owner := some ip.1, oldOwner := st.owner,
    teams := setActive st.teams ip.2.team (some ip.1), acquired := true }

/-- The acquisition scan (lines 657-671): a fold over the player store in
iteration order. -/
def scan (ot : Option (Fin 2)) (bp : Vec) (ps : List Player) (st : ScanRes) : ScanRes :=
  (withIdx ps).foldl (scan_step ot bp) st

/-- Lines 672-684: commit the scan result; if the ball was acquired, remove
its `Vector` component exactly when `old_owner` ended the scan as `None`, and
set the ball's holdoff timer; give `old_owner` (if any) a 60-tick
re-acquisition timer. -/
def apply_acquisition (holdoff : ℤ) (s : GState) (r : ScanRes) : GState :=
  let s1 := { s with ballOwner := r.owner, teams := r.teams }
  let s2 :=
    if r.acquired then
      { s1 with ballVel := if r.oldOwner = none then none else s1.ballVel,
                ballTimer := holdoff }
    else s1
  match r.oldOwner with
  | some o => { s2 with players := setTimer s2.players o 60 }
  | none => s2

/-- Selecting the per-team "shoot pressed" input. -/
def getPressed (pressed : Bool × Bool) (t : Fin 2) : Bool :=
  if t = 0 then pressed.1 else pressed.2

/-- Writing `self.shoot_now[t]`. -/
def setShootNow (sn : Bool × Bool) (t : Fin 2) (b : Bool) : Bool × Bool :=
  if t = 0 then (b, sn.2) else (sn.1, b)

/-- Lines 685-779: shot/pass evaluation and the kick.  `pressed` is the
edge-triggered shoot input per team; `kickVel` is the velocity the source
stores for a targeted kick (`shoot_vec.normalize() * KICK_STRENGTH`, whose
exact value is irrational over `ℚ` and is not read by any claim).  For the
no-target kick the shoot vector is the owner's unit facing vector, so its
normalization is itself and both the fallback destination and the kick
velocity are exact. -/
def kick_phase (pressed : Bool × Bool) (kickVel : Vec) (s : GState) : GState :=
  let s0 := { s with shootNow := (false, false), debugShootTarget := none }
  match s0.ballOwner with
  | none => s0
  | some oid =>
    let owner := getPlayer s0.players oid
    let ownerTeamHuman := (getTeam s0.teams owner.team).human
    let targets : List ShootTarget :=
      ((withIdx s0.players).filter (fun ip => decide (ip.1 ≠ oid ∧ ip.2.team = owner.team))).map
        (fun ip => ShootTarget.player ip.2.pos ip.1)
      ++ [ShootTarget.goal (HALF_LEVEL_W, ((owner.team : ℕ) : ℚ) * LEVEL_H)]
    let best := choose_shoot_target owner.pos owner.facing targets
    let s1 := { s0 with debugShootTarget := best.map (fun st : ShootTarget => st.position) }
    let doShoot := ownerTeamHuman && getPressed pressed owner.team
    let s2 := { s1 with shootNow := setShootNow s1.shootNow owner.team doShoot }
    if doShoot then
      match best with
      | some st =>
        let s3 :=
          match st with
          | .player _ tid => { s2 with teams := setActive s2.teams owner.team (some tid) }
          | .goal _ => s2
        { s3 with players := setTimer s3.players oid 10, ballOwner := none,
                  ballVel := some kickVel }
      | none =>
        let dest := vadd owner.pos (vscale 250 owner.facing)
        let closest :=
          pickMin (fun ip => len2 (vsub ip.2.pos dest)) none
            ((withIdx s2.players).filter (fun ip => decide (ip.2.team = owner.team)))
        let s3 := { s2 with teams := setActive s2.teams owner.team (closest.map (fun ip : ℕ × Player => ip.1)) }
        { s3 with players := setTimer s3.players oid 10, ballOwner := none,
                  ballVel := some (vscale KICK_STRENGTH owner.facing) }
    else s2

/-- Source `Game::update_ball` (lines 600-780): movement/dribble phase, insert
the forfeit velocity, acquisition scan, commit, shot evaluation and kick. -/
def update_ball (holdoff : ℤ) (pressed : Bool × Bool) (kickVel : Vec) (s : GState) : GState :=
  let m := ball_move s
  let s1 := insert_ball_vector m.1 m.2.2
  let r := scan m.2.1 s1.ballPos s1.players ⟨s1.ballOwner, none, s1.teams, false⟩
  let s2 := apply_acquisition holdoff s1 r
  kick_phase pressed kickVel s2

/-- The players that qualify in `update_ball`'s acquisition scan, in scan
order (with their entity ids). -/
def scan_qualifiers (s : GState) : List (ℕ × Player) :=
  let m := ball_move s
  (withIdx m.1.players).filter (fun ip => decide (qualifies m.2.1 m.1.ballPos ip.2))

/-! ### Entity construction, reset and goal detection (source lines 326-395) -/

/-- Source `build_player` (lines 820-831): `jit` is the random jitter pair
drawn from `gen_range(-32., 32.)` for each coordinate (a parameter of the
embedding); the spawn position is `(x, y/2 + offs)`; `Animation::new` faces
octant `0`, i.e. the unit vector `(0, -1)`; `Timer` starts at `0`. -/
def build_player (jit : Vec) (xy : Vec) (offs : ℚ) (team : Fin 2) : Player :=
  let x := xy.1 + jit.1
  let y := xy.2 + jit.2
  { pos := (x, y / 2 + offs), facing := (0, -1), team := team, timer := 0 }

/-- Source `add_players` (lines 371-395): 14 players spawned alternating team
0 / team 1 from the 7 template positions (team 1 mirrored), actives set to the
first player of each team, and the kickoff player (the non-scoring team's
first player) moved to the centre spot.  `jit` supplies the 14 jitter pairs in
spawn order. -/
def add_players (jit : ℕ → Vec) (s : GState) : GState :=
  let ps : List Player :=
    (List.range 7).flatMap (fun i =>
      let xy := PLAYER_START_POS.getD i (0, 0)
      [build_player (jit (2 * i)) xy 550 0,
       build_player (jit (2 * i + 1)) (vsub (LEVEL_W, LEVEL_H) xy) 150 1])
  let kickoffTeam : ℕ := 1 - s.scoringTeam
  let kp := kickoffTeam
  let ps1 := (withIdx ps).map (fun jp =>
    if jp.1 = kp then
      { jp.2 with pos := (HALF_LEVEL_W - 30 + (kickoffTeam : ℚ) * 60, HALF_LEVEL_H) }
    else jp.2)
  { s with players := ps1,
           teams := ({ s.teams.1 with active := some 0 }, { s.teams.2 with active := some 1 }),
           kickoffPlayer := some kp }

/-- Source `build_ball` (lines 813-818) as the ball's component values. -/
def ball_start : Vec × Option Vec × ℤ := ((HALF_LEVEL_W, HALF_LEVEL_H), some (0, 0), 0)

/-- Source `Game::new` (lines 326-346): fresh world with the ball and players;
no owner, no controls, `scoring_team = 1`, `score_timer = 0`. -/
def game_new (jit : ℕ → Vec) : GState :=
  add_players jit
    { players := [],
      ballPos := ball_start.1, ballVel := ball_start.2.1, ballTimer := ball_start.2.2,
      ballOwner := none, kickoffPlayer := none,
      teams := (⟨false, 0, none⟩, ⟨false, 0, none⟩),
      scoringTeam := 1, scoreTimer := 0,
      cameraFocus := (HALF_LEVEL_W, HALF_LEVEL_H),
      shootNow := (false, false), debugShootTarget := none }

/-- Source `Game::reset` (lines 348-356): clear the world, rebuild ball and
players, clear ownership, re-centre the camera. -/
def reset (jit : ℕ → Vec) (s : GState) : GState :=
  add_players jit
    { s with players := [],
             ballPos := ball_start.1, ballVel := ball_start.2.1, ballTimer := ball_start.2.2,
             ballOwner := none,
             cameraFocus := (HALF_LEVEL_W, HALF_LEVEL_H) }

/-- Bumping `self.teams[i].score`. -/
def bumpScore (ts : TeamInfo × TeamInfo) (i : ℕ) : TeamInfo × TeamInfo :=
  if i = 0 then ({ ts.1 with score := ts.1.score + 1 }, ts.2)
  else (ts.1, { ts.2 with score := ts.2.score + 1 })

/-- Source `Game::check_goals` (lines 358-369): decrement the score-freeze
countdown; at exactly `0` perform the full reset; while negative, detect a
goal when the ball's y leaves the pitch band and award it. -/
def check_goals (jit : ℕ → Vec) (s : GState) : GState :=
  let t := s.scoreTimer - 1
  if t = 0 then
    reset jit { s with scoreTimer := t }
  else if t < 0 ∧ |s.ballPos.2 - HALF_LEVEL_H| > HALF_PITCH_H then
    let st : ℕ := if s.ballPos.2 < HALF_LEVEL_H then 0 else 1
    { s with scoreTimer := 60, scoringTeam := st, teams := bumpScore s.teams st }
  else
    { s with scoreTimer := t }

/-! ### Team switching (source `switch_players`, lines 782-810, and
`cmp_dist_weighted`, lines 893-907) -/

/-- The divisor applied by `cmp_dist_weighted`: `2` when
`(v.y - dest.y) * bias < 0`, else `1`. -/
def switch_weight (dest : Vec) (bias : ℚ) (v : Vec) : ℚ :=
  if (v.2 - dest.2) * bias < 0 then 2 else 1

/-- The comparison key of `cmp_dist_weighted`: the source compares
`(v - dest).length() / w`; comparing those values is equivalent to comparing
`len2 (v - dest) / w²` (all quantities nonnegative, `w > 0`). -/
def switch_key (dest : Vec) (bias : ℚ) (v : Vec) : ℚ :=
  len2 (vsub v dest) / switch_weight dest bias v ^ 2

/-- One team's body of the `switch_players` loop (lines 786-809): if that
team did not just shoot, is human, and pressed shoot this tick, re-target its
active player to the `min_by(cmp_dist_weighted)` choice among its players,
with `dir_bias = 2t - 1` when the ball has an owner and `0` otherwise. -/
def switch_team (pressed : Bool × Bool) (s : GState) (t : Fin 2) : GState :=
  if ¬ (getPressed s.shootNow t) ∧ (getTeam s.teams t).human ∧ getPressed pressed t then
    let bias : ℚ := if s.ballOwner.isSome then 2 * ((t : ℕ) : ℚ) - 1 else 0
    let choice :=
      pickMin (fun ip => switch_key s.ballPos bias ip.2.pos) none
        ((withIdx s.players).filter (fun ip => decide (ip.2.team = t)))
    { s with teams := setActive s.teams t (choice.map (fun ip : ℕ × Player => ip.1)) }
  else s

/-- Source `Game::switch_players` (lines 782-810): no-op during the kickoff
freeze, else process team 0 then team 1. -/
def switch_players (pressed : Bool × Bool) (s : GState) : GState :=
  if s.kickoffPlayer.isSome then s
  else switch_team pressed (switch_team pressed s 0) 1

/-- The weighting the claim (and spec §4.5) describes: halve the effective
distance of players on the team's ATTACKING side of the ball.  Modelled from
the spec's words, for comparison with the source's `switch_key`: team 0
attacks decreasing y, team 1 attacks increasing y. -/
def spec_attacking_key (dest : Vec) (hasOwner : Bool) (t : Fin 2) (v : Vec) : ℚ :=
  let attacking : Prop := if t = 0 then v.2 < dest.2 else v.2 > dest.2
  if hasOwner ∧ attacking then len2 (vsub v dest) / 2 ^ 2 else len2 (vsub v dest)

/-! ### Lead assignment (source `set_behaviours`, lines 437-485)

The defending-side lead selection with the ball owner present.  The inputs —
the candidate players with their `Team`, `Timer`, current `Mark` kind (the
goalie swap of lines 422-436 has already run) and `Position` — are taken as a
list in store-iteration order. -/

/-- The per-player view taken by the lead scan. -/
structure BPlayer where
  id : ℕ
  team : Fin 2
  timer : ℤ
  markIsPlayer : Bool
  pos : Vec
deriving DecidableEq

/-- The filter of lines 442-453: on the defending team, timer non-positive,
not the defending team's active player if that team is human, and currently
marking a player (not the goal). -/
def lead_eligible (dt : Fin 2) (ti : TeamInfo) (p : BPlayer) : Prop :=
  p.team = dt ∧ p.timer ≤ 0
  ∧ (¬ ti.human = true ∨ ti.active = none ∨ ti.active ≠ some p.id)
  ∧ p.markIsPlayer = true

instance (dt : Fin 2) (ti : TeamInfo) (p : BPlayer) : Decidable (lead_eligible dt ti p) := by
  unfold lead_eligible; infer_instance

/-- The upfield test of lines 457-464: past the owner along the defending
team's attack axis. -/
def upfield (dt : Fin 2) (ownerPos : Vec) (p : BPlayer) : Bool :=
  if dt = 1 then decide (p.pos.2 > ownerPos.2) else decide (p.pos.2 < ownerPos.2)

/-- The interleaving of lines 465-475: pad both lists with two `None`s, zip,
flatten alternately starting upfield, drop the `None`s. -/
def interleave (up down : List α) : List α :=
  (((up.map some ++ [none, none]).zip (down.map some ++ [none, none])).flatMap
    (fun t => [t.1, t.2])).filterMap id

/-- The ranked lead list: eligible players, sorted nearest-first to the ball
owner (`sort_by(cmp_dist)`, a stable merge sort on the squared-distance key),
partitioned into upfield/downfield, interleaved. -/
def lead_ranking (dt : Fin 2) (ti : TeamInfo) (ownerPos : Vec) (ps : List BPlayer) :
    List BPlayer :=
  let elig := ps.filter (fun p => decide (lead_eligible dt ti p))
  let sorted := elig.mergeSort (fun a b => decide (len2 (vsub a.pos ownerPos) ≤ len2 (vsub b.pos ownerPos)))
  let up := sorted.filter (fun p => upfield dt ownerPos p)
  let down := sorted.filter (fun p => ! upfield dt ownerPos p)
  interleave up down

/-- The write-back loop of lines 476-485: rank `n` gets `Lead(dist, Some n)`
with `dist = Some 10` at rank 0, `Some 50` at rank 1 when the difficulty's
second lead is enabled, `None` otherwise (every player's lead was reset to
`Lead(None, None)` at line 414). -/
def lead_assign (secondLead : Bool) (ranking : List BPlayer) (i : ℕ) :
    Option ℚ × Option ℕ :=
  ((withIdx ranking).filter (fun np => decide (np.2.id = i))).foldl
    (fun _ np =>
      ((if np.1 = 0 then some LEAD_DISTANCE_1
        else if np.1 = 1 ∧ secondLead then some LEAD_DISTANCE_2 else none), some np.1))
    (none, none)

/-! ### The possession / free-flight invariant -/

/-- The ball carries a `Vector` (velocity) component exactly when the match
has no ball owner. -/
def PossessionInv (s : GState) : Prop := s.ballVel.isSome ↔ s.ballOwner = none

/-- A concrete state exercising team switching: team 0 is human with two
players around the ball (one on its attacking side at distance 60, one on its
own-goal side at distance 100), and the ball is owned by a team-1 player. -/
def switchState : GState :=
  { players := [⟨(500, 640), (0, -1), 0, 0⟩, ⟨(500, 800), (0, -1), 0, 0⟩,
                ⟨(400, 700), (0, -1), 1, 0⟩],
    ballPos := (500, 700), ballVel := none, ballTimer := 0,
    ballOwner := some 2, kickoffPlayer := none,
    teams := (⟨true, 0, some 0⟩, ⟨false, 0, some 2⟩),
    scoringTeam := 1, scoreTimer := -1, cameraFocus := (500, 700),
    shootNow := (false, false), debugShootTarget := none }

/-- Like `twoQualifierState` but with the second player outside the capture
radius, so exactly one player qualifies in the scan. -/
def oneQualifierState : GState :=
  { players := [⟨(500, 700), (0, -1), 0, 0⟩, ⟨(500, 900), (0, -1), 1, 0⟩],
    ballPos := (500, 700), ballVel := some (0, 0), ballTimer := 0,
    ballOwner := none, kickoffPlayer := none,
    teams := (⟨false, 0, none⟩, ⟨false, 0, none⟩),
    scoringTeam := 1, scoreTimer := -1, cameraFocus := (500, 700),
    shootNow := (false, false), debugShootTarget := none }

/-- A minimal concrete state exercising the acquisition scan: a free ball at
the centre spot carrying a zero velocity, and two opposing players standing on
the ball with expired timers — both qualify in the same scan. -/
def twoQualifierState : GState :=
  { players := [⟨(500, 700), (0, -1), 0, 0⟩, ⟨(500, 700), (0, -1), 1, 0⟩],
    ballPos := (500, 700), ballVel := some (0, 0), ballTimer := 0,
    ballOwner := none, kickoffPlayer := none,
    teams := (⟨false, 0, none⟩, ⟨false, 0, none⟩),
    scoringTeam := 1, scoreTimer := -1, cameraFocus := (500, 700),
    shootNow := (false, false), debugShootTarget := none }

end Soccer

namespace Soccer

/-! ## Theorems -/

/-- C3: one free-flight step of `ball_physics` computes `position += velocity`;
if the result leaves the bound interval, the position step is reverted and the
velocity negated; in every case the returned velocity is the (possibly
negated) velocity scaled by the drag `0.98`.  Concretely, from position `500`,
velocity `5`, bounds `(0, 504)` one step returns `(500, -4.9)`, and a further
step from `(500, -4.9)` returns `(495.1, -4.802)`. -/
theorem claim_C3_ball_physics :
    (∀ pos vel lo hi : ℚ,
      ball_physics pos vel (lo, hi) =
        if pos + vel < lo ∨ pos + vel > hi then (pos, -vel * (98 / 100))
        else (pos + vel, vel * (98 / 100)))
    ∧ ball_physics 500 5 (0, 504) = (500, -4.9)
    ∧ ball_physics 500 (-4.9) (0, 504) = (495.1, -4.802) := by
  refine ⟨fun pos vel lo hi => ?_, ?_, ?_⟩
  · simp only [ball_physics]
    split_ifs <;> simp [DRAG, Prod.ext_iff] <;> exact Or.inl (by norm_num)
  · simp [ball_physics, DRAG]; norm_num
  · simp [ball_physics, DRAG]; norm_num

/-- C8 counterexample: the claim asserts `allow_movement` returns `true` at a
point with `y = 0` whose `x` lies outside the goal-mouth band
(`|x - 500| ≥ 113`) but within the level's width; at `x = 800` the code
returns `false` (the guard `|0 - 700| < 700` fails on the back line). -/
theorem claim_C8_counterexample :
    ¬ allow_movement 800 0
    ∧ ¬ (|(800 : ℚ) - HALF_LEVEL_W| < HALF_GOAL_W + 20)
    ∧ |(800 : ℚ) - HALF_LEVEL_W| ≤ HALF_LEVEL_W := by
  refine ⟨?_, ?_, ?_⟩ <;>
    norm_num [allow_movement, HALF_LEVEL_W, HALF_LEVEL_H, HALF_PITCH_H, HALF_GOAL_W,
      GOAL_WIDTH, LEVEL_W, LEVEL_H]

/-- C8 (amended): `allow_movement` holds at the level centre `(500, 700)`;
at `y = 0` (the goal back line) it returns `false` for every `x` — both inside
the goal-mouth band (`|0 - 700| < 622` fails) and outside it (`|0 - 700| <
700` fails, the back line being excluded by the strict inequality). -/
theorem claim_C8_allow_movement :
    allow_movement HALF_LEVEL_W HALF_LEVEL_H ∧ ∀ x : ℚ, ¬ allow_movement x 0 := by
  constructor
  · norm_num [allow_movement, HALF_LEVEL_W, HALF_LEVEL_H, HALF_PITCH_H, HALF_GOAL_W,
      GOAL_WIDTH, LEVEL_W, LEVEL_H]
  · intro x
    unfold allow_movement HALF_LEVEL_W HALF_LEVEL_H HALF_PITCH_H HALF_GOAL_W GOAL_WIDTH LEVEL_W LEVEL_H
    norm_num

/-- C8 witness: the amended theorem applied at `x = 800`. -/
theorem claim_C8_witness : ¬ allow_movement 800 0 :=
  claim_C8_allow_movement.2 800

theorem drag_cast : ((DRAG : ℚ) : ℝ) = 0.98 := by norm_num [DRAG]

theorem kick_strength_cast : ((KICK_STRENGTH : ℚ) : ℝ) = 11.5 := by norm_num [KICK_STRENGTH]

/-- C4: `steps 0 = 0`; `steps` is monotone non-decreasing on `[0, 574)`, where
it equals `⌈log_0.98 (1 - d·(1-0.98)/11.5)⌉`; and `steps d = 190` for every
`d ≥ 574`. -/
theorem claim_C4_steps :
    steps 0 = 0
    ∧ (∀ d₁ d₂ : ℝ, 0 ≤ d₁ → d₁ ≤ d₂ → d₂ < 574 → steps d₁ ≤ steps d₂)
    ∧ (∀ d : ℝ, d < 574 → steps d = ⌈Real.logb 0.98 (1 - d * (1 - 0.98) / 11.5)⌉)
    ∧ (∀ d : ℝ, 574 ≤ d → steps d = 190) := by
  have hb : ((DRAG : ℚ) : ℝ) = 0.98 := drag_cast
  have hk : ((KICK_STRENGTH : ℚ) : ℝ) = 11.5 := kick_strength_cast
  refine ⟨?_, ?_, ?_, ?_⟩
  · rw [steps, if_pos (by norm_num)]
    norm_num [Real.logb_one]
  · intro d₁ d₂ h0 h12 h2
    have h1 : d₁ < 574 := lt_of_le_of_lt h12 h2
    rw [steps, steps, if_pos h1, if_pos h2]
    apply Int.ceil_le_ceil
    rw [hb, hk]
    have ha2 : (0 : ℝ) < 1 - d₂ * (1 - 0.98) / 11.5 := by norm_num; linarith
    have ha1 : (0 : ℝ) < 1 - d₁ * (1 - 0.98) / 11.5 := by norm_num; linarith
    rw [Real.logb_le_logb_of_base_lt_one (by norm_num) (by norm_num) ha1 ha2]
    norm_num
    linarith
  · intro d hd
    rw [steps, if_pos hd, hb, hk]
  · intro d hd
    rw [steps, if_neg (not_lt.2 hd)]

/-- C4 witness: the monotonicity clause applied at `d₁ = 0`, `d₂ = 100`. -/
theorem claim_C4_witness : steps 0 ≤ steps 100 :=
  claim_C4_steps.2.1 0 100 le_rfl (by norm_num) (by norm_num)

theorem len2_vscale (c : ℚ) (v : Vec) : len2 (vscale c v) = c ^ 2 * len2 v := by
  simp [vscale, len2]; ring

theorem sim_step_iterate_vel (s : BallSim) (n : ℕ) :
    (sim_step^[n] s).vel = vscale (DRAG ^ n) s.vel := by
  induction n with
  | zero => simp [vscale]
  | succ k ih =>
    rw [Function.iterate_succ_apply']
    show vscale DRAG (sim_step^[k] s).vel = _
    rw [ih]
    simp [vscale]
    constructor <;> ring

/-- C10: the interception simulation loop terminates for every initial ball
position, ball velocity and player position: the simulated velocity is scaled
by the drag `0.98` each iteration, so after finitely many iterations the
continuation condition fails (the simulated speed falls to `0.5` or below,
unless the distance condition has already ended the loop). -/
theorem claim_C10_intercept_terminates (ballPos ballVel playerPos : Vec) :
    ∃ n : ℕ, ¬ sim_continue playerPos (sim_step^[n] ⟨ballPos, ballVel, 0⟩) := by
  by_cases h : len2 ballVel ≤ (1 / 2 : ℚ) ^ 2
  · exact ⟨0, fun hc => absurd hc.2 (not_lt.2 (by simpa using h))⟩
  · have hL : (0 : ℚ) < len2 ballVel := lt_trans (by norm_num) (not_le.1 h)
    obtain ⟨n, hn⟩ :=
      exists_pow_lt_of_lt_one (x := (1 / 2 : ℚ) ^ 2 / len2 ballVel) (y := DRAG ^ 2)
        (by positivity) (by norm_num [DRAG])
    refine ⟨n, fun hc => ?_⟩
    have hv : len2 (sim_step^[n] ⟨ballPos, ballVel, 0⟩).vel
        = (DRAG ^ 2) ^ n * len2 ballVel := by
      rw [sim_step_iterate_vel, len2_vscale, ← pow_right_comm]
    have hlt : (DRAG ^ 2) ^ n * len2 ballVel < (1 / 2 : ℚ) ^ 2 :=
      (lt_div_iff₀ hL).1 hn
    exact absurd (hv ▸ hc.2) (not_lt.2 (le_of_lt hlt))

theorem pickMin_spec (key : α → ℚ) :
    ∀ (l : List α) (acc : Option α) (m : α),
      pickMin key acc l = some m →
      (acc = some m ∨ m ∈ l) ∧ (∀ x ∈ l, key m ≤ key x)
        ∧ (∀ a, acc = some a → key m ≤ key a) := by
  intro l
  induction l with
  | nil =>
    intro acc m h
    simp only [pickMin] at h
    refine ⟨Or.inl h, by simp, fun a ha => ?_⟩
    rw [ha] at h
    cases h
    exact le_refl _
  | cons x l ih =>
    intro acc m h
    cases acc with
    | none =>
      obtain ⟨hmem, hmin, hacc⟩ := ih (some x) m h
      refine ⟨Or.inr ?_, ?_, by simp⟩
      · rcases hmem with h1 | h1
        · simp at h1; simp [h1]
        · simp [h1]
      · intro y hy
        rcases List.mem_cons.1 hy with rfl | hy
        · exact hacc y rfl
        · exact hmin y hy
    | some a =>
      obtain ⟨hmem, hmin, hacc⟩ := ih _ m h
      have hxa := hacc _ rfl
      by_cases hlt : key x < key a
      · rw [if_pos hlt] at hmem hxa
        refine ⟨?_, ?_, ?_⟩
        · rcases hmem with h1 | h1
          · simp at h1; simp [h1]
          · simp [h1]
        · intro y hy
          rcases List.mem_cons.1 hy with rfl | hy
          · exact hxa
          · exact hmin y hy
        · intro b hb
          cases hb
          exact le_of_lt (lt_of_le_of_lt hxa hlt)
      · rw [if_neg hlt] at hmem hxa
        refine ⟨?_, ?_, ?_⟩
        · rcases hmem with h1 | h1
          · simp at h1; exact Or.inl (by rw [h1])
          · simp [h1]
        · intro y hy
          rcases List.mem_cons.1 hy with rfl | hy
          · exact le_trans hxa (not_lt.1 hlt)
          · exact hmin y hy
        · intro b hb
          cases hb
          exact hxa

theorem len2_nonneg (v : Vec) : 0 ≤ len2 v := by
  unfold len2; positivity

/-- C6 counterexample: the claim retains candidates at distance in `(0, 300]`,
but the code drops a candidate at distance exactly `300`: the goal candidate
straight ahead of an owner at the origin facing `(0,-1)` has distance `300`
and normalized-direction dot product `1 > 0.8`, yet `retain_target` rejects
it (`length >= 300.0` fails it). -/
theorem claim_C6_counterexample :
    ¬ retain_target (0, 0) (0, -1) (.goal (0, -300))
    ∧ len2 (vsub ((0 : ℚ), (-300 : ℚ)) (0, 0)) = 300 ^ 2
    ∧ 0 < dot (vsub ((0 : ℚ), (-300 : ℚ)) (0, 0)) (0, -1)
    ∧ 16 * len2 (vsub ((0 : ℚ), (-300 : ℚ)) (0, 0))
        < 25 * dot (vsub ((0 : ℚ), (-300 : ℚ)) (0, 0)) (0, -1) ^ 2 := by
  refine ⟨?_, ?_, ?_, ?_⟩ <;>
    norm_num [retain_target, ShootTarget.position, len2, dot, vsub]

/-- C6 (amended): a candidate is retained exactly when its distance to the
owner lies in the OPEN interval `(0, 300)` (squared: `len2 ∈ (0, 300²)`) and
the normalized direction-dot-facing exceeds `0.8`; among the retained
candidates, the chosen one (Rust `min_by`, first minimum on ties) is a
retained member of the candidate list at minimal distance. -/
theorem claim_C6_shoot_filter :
    (∀ o f st, retain_target o f st ↔
      (0 < len2 (vsub st.position o) ∧ len2 (vsub st.position o) < 300 ^ 2
        ∧ 0 < dot (vsub st.position o) f
        ∧ 16 * len2 (vsub st.position o) < 25 * dot (vsub st.position o) f ^ 2))
    ∧ (∀ o f targets m, choose_shoot_target o f targets = some m →
        retain_target o f m ∧ m ∈ targets ∧
          ∀ t ∈ targets, retain_target o f t →
            len2 (vsub m.position o) ≤ len2 (vsub t.position o)) := by
  constructor
  · intro o f st
    unfold retain_target
    have h0 := len2_nonneg (vsub st.position o)
    constructor
    · rintro ⟨h1, h2, h3⟩
      push_neg at h1
      exact ⟨h1.1, h1.2, h2, h3⟩
    · rintro ⟨h1, h2, h3, h4⟩
      exact ⟨by push_neg; exact ⟨h1, h2⟩, h3, h4⟩
  · intro o f targets m h
    obtain ⟨hmem, hmin, -⟩ := pickMin_spec _ _ _ _ h
    have hmem' : m ∈ targets.filter (fun st => decide (retain_target o f st)) := by
      rcases hmem with h1 | h1
      · cases h1
      · exact h1
    obtain ⟨hmem2, hret⟩ := List.mem_filter.1 hmem'
    refine ⟨of_decide_eq_true hret, hmem2, fun t ht hrt => ?_⟩
    exact hmin t (List.mem_filter.2 ⟨ht, decide_eq_true hrt⟩)

/-- C6 witness: the selection clause applied to a one-candidate list — a goal
candidate 100px straight ahead is retained and chosen. -/
theorem claim_C6_witness :
    retain_target (0, 0) (0, -1) (.goal (0, -100))
    ∧ ShootTarget.goal ((0 : ℚ), (-100 : ℚ)) ∈ [ShootTarget.goal (0, -100)] :=
  have h := claim_C6_shoot_filter.2 (0, 0) (0, -1) [.goal (0, -100)] (.goal (0, -100))
    (by norm_num [choose_shoot_target, retain_target, ShootTarget.position, len2, dot, vsub,
      List.filter, pickMin])
  ⟨h.1, h.2.1⟩

/-! ### Lemmas on the acquisition scan -/

theorem scan_step_of_qualifies {ot : Option (Fin 2)} {bp : Vec} {st : ScanRes}
    {ip : ℕ × Player} (h : qualifies ot bp ip.2) :
    scan_step ot bp st ip = scan_ustep st ip := by
  rw [scan_step, if_pos h]; rfl

theorem scan_step_of_not_qualifies {ot : Option (Fin 2)} {bp : Vec} {st : ScanRes}
    {ip : ℕ × Player} (h : ¬ qualifies ot bp ip.2) :
    scan_step ot bp st ip = st := by
  rw [scan_step, if_neg h]

theorem scanFold_eq_filter (ot : Option (Fin 2)) (bp : Vec) :
    ∀ (l : List (ℕ × Player)) (st : ScanRes),
      l.foldl (scan_step ot bp) st
        = (l.filter (fun ip => decide (qualifies ot bp ip.2))).foldl scan_ustep st := by
  intro l
  induction l with
  | nil => intro st; rfl
  | cons x l ih =>
    intro st
    by_cases hq : qualifies ot bp x.2
    · rw [List.foldl_cons, scan_step_of_qualifies hq,
        List.filter_cons_of_pos (by simpa using hq), List.foldl_cons, ih]
    · rw [List.foldl_cons, scan_step_of_not_qualifies hq,
        List.filter_cons_of_neg (by simpa using hq), ih]

theorem scan_eq_ufold (ot : Option (Fin 2)) (bp : Vec) (ps : List Player) (st : ScanRes) :
    scan ot bp ps st
      = ((withIdx ps).filter (fun ip => decide (qualifies ot bp ip.2))).foldl scan_ustep st :=
  scanFold_eq_filter ot bp (withIdx ps) st

theorem ufold_concat (l : List (ℕ × Player)) (a : ℕ × Player) (st : ScanRes) :
    (l ++ [a]).foldl scan_ustep st = scan_ustep (l.foldl scan_ustep st) a := by
  rw [List.foldl_append]; rfl

theorem ufold_owner (l : List (ℕ × Player)) (st : ScanRes) :
    (l.foldl scan_ustep st).owner = l.getLast?.elim st.owner (fun a => some a.1) := by
  induction l using List.reverseRecOn with
  | nil => rfl
  | append_singleton l a ih =>
    rw [ufold_concat]
    simp [scan_ustep]

theorem apply_acquisition_ballVel (ho : ℤ) (s : GState) (r : ScanRes) :
    (apply_acquisition ho s r).ballVel =
      if r.acquired = true ∧ r.oldOwner = none then none else s.ballVel := by
  unfold apply_acquisition
  cases ha : r.acquired <;> cases hoo : r.oldOwner <;> simp [ha, hoo]

theorem apply_acquisition_ballOwner (ho : ℤ) (s : GState) (r : ScanRes) :
    (apply_acquisition ho s r).ballOwner = r.owner := by
  unfold apply_acquisition
  cases ha : r.acquired <;> cases hoo : r.oldOwner <;> simp [ha, hoo]

theorem insert_ball_vector_fields (s : GState) (o : Option Vec) :
    (insert_ball_vector s o).players = s.players
    ∧ (insert_ball_vector s o).ballPos = s.ballPos
    ∧ (insert_ball_vector s o).ballOwner = s.ballOwner
    ∧ (insert_ball_vector s o).teams = s.teams := by
  cases o <;> simp [insert_ball_vector]

theorem phase1_inv (s : GState) (h : PossessionInv s) :
    PossessionInv (insert_ball_vector (ball_move s).1 (ball_move s).2.2) := by
  unfold PossessionInv at *
  cases ho : s.ballOwner with
  | none => simp [ball_move, ho, insert_ball_vector]
  | some oid =>
    have hv : s.ballVel = none := by
      cases hv : s.ballVel with
      | none => rfl
      | some v => exact absurd (h.1 (by simp [hv])) (by simp [ho])
    simp only [ball_move, ho]
    split_ifs with hp
    · simp [insert_ball_vector, hv, ho]
    · simp [insert_ball_vector]

theorem kick_phase_inv (pr : Bool × Bool) (kv : Vec) (s : GState) (h : PossessionInv s) :
    PossessionInv (kick_phase pr kv s) := by
  unfold PossessionInv at *
  cases ho : s.ballOwner with
  | none => simpa [kick_phase, ho] using h
  | some oid =>
    simp only [kick_phase, ho]
    split_ifs with hds
    · split <;> simp
    · simpa [ho] using h

theorem getTeam_setActive (ts : TeamInfo × TeamInfo) (t : Fin 2) (id : Option ℕ) :
    (getTeam (setActive ts t id) t).active = id := by
  fin_cases t <;> simp [getTeam, setActive]

/-- C2 (amended): the acquisition scan is the fold of the unconditional
acquisition step over exactly the qualifying players in scan order.  If no
player qualifies, nothing changes.  Otherwise the LAST qualifier in scan order
ends up as owner, the scan reports an acquisition, the last qualifier's team's
active player is the last qualifier, and `old_owner` ends the scan holding the
owner as it stood before the last acquisition — the prior owner when exactly
one player qualifies, the second-to-last qualifier when several do.
Consequently the ball's Velocity component is removed exactly when the ball
had no prior owner AND exactly one player qualified, and the 60-tick timer
goes to the value `old_owner` holds after the scan (not necessarily the prior
owner). -/
theorem claim_C2_acquisition (ot : Option (Fin 2)) (bp : Vec) (ps : List Player)
    (own₀ : Option ℕ) (ts₀ : TeamInfo × TeamInfo) :
    (scan ot bp ps ⟨own₀, none, ts₀, false⟩
        = ((withIdx ps).filter (fun ip => decide (qualifies ot bp ip.2))).foldl scan_ustep
            ⟨own₀, none, ts₀, false⟩)
    ∧ ((withIdx ps).filter (fun ip => decide (qualifies ot bp ip.2)) = [] →
        scan ot bp ps ⟨own₀, none, ts₀, false⟩ = ⟨own₀, none, ts₀, false⟩)
    ∧ (∀ l a, (withIdx ps).filter (fun ip => decide (qualifies ot bp ip.2)) = l ++ [a] →
        (scan ot bp ps ⟨own₀, none, ts₀, false⟩).owner = some a.1
        ∧ (scan ot bp ps ⟨own₀, none, ts₀, false⟩).acquired = true
        ∧ (getTeam (scan ot bp ps ⟨own₀, none, ts₀, false⟩).teams a.2.team).active = some a.1
        ∧ (scan ot bp ps ⟨own₀, none, ts₀, false⟩).oldOwner
            = l.getLast?.elim own₀ (fun b => some b.1))
    ∧ (((scan ot bp ps ⟨own₀, none, ts₀, false⟩).acquired = true
          ∧ (scan ot bp ps ⟨own₀, none, ts₀, false⟩).oldOwner = none)
        ↔ (own₀ = none
            ∧ ((withIdx ps).filter (fun ip => decide (qualifies ot bp ip.2))).length = 1))
    ∧ (∀ (holdoff : ℤ) (s : GState) (r : ScanRes),
        (apply_acquisition holdoff s r).ballVel
          = if r.acquired = true ∧ r.oldOwner = none then none else s.ballVel) := by
  have hconcat : ∀ (l : List (ℕ × Player)) (a : ℕ × Player),
      (withIdx ps).filter (fun ip => decide (qualifies ot bp ip.2)) = l ++ [a] →
      (scan ot bp ps ⟨own₀, none, ts₀, false⟩).owner = some a.1
      ∧ (scan ot bp ps ⟨own₀, none, ts₀, false⟩).acquired = true
      ∧ (getTeam (scan ot bp ps ⟨own₀, none, ts₀, false⟩).teams a.2.team).active = some a.1
      ∧ (scan ot bp ps ⟨own₀, none, ts₀, false⟩).oldOwner
          = l.getLast?.elim own₀ (fun b => some b.1) := by
    intro l a h
    rw [scan_eq_ufold, h, ufold_concat]
    refine ⟨rfl, rfl, ?_, ?_⟩
    · exact getTeam_setActive _ _ _
    · show (l.foldl scan_ustep ⟨own₀, none, ts₀, false⟩).owner = _
      rw [ufold_owner]
  refine ⟨scan_eq_ufold ot bp ps _, ?_, hconcat, ?_,
    fun holdoff s r => apply_acquisition_ballVel holdoff s r⟩
  · intro h
    rw [scan_eq_ufold, h]
    rfl
  · rcases List.eq_nil_or_concat
        ((withIdx ps).filter (fun ip => decide (qualifies ot bp ip.2))) with hnil | ⟨l, a, hcat⟩
    · rw [scan_eq_ufold, hnil]
      simp
    · rw [List.concat_eq_append] at hcat
      obtain ⟨how, hacq, -, hold⟩ := hconcat l a hcat
      rw [hacq, hold, hcat]
      cases hgl : l.getLast? with
      | none =>
        have hl : l = [] := List.getLast?_eq_none_iff.1 hgl
        subst hl
        simp [Option.elim]
      | some b =>
        have hl : l ≠ [] := by
          intro hc; subst hc; simp at hgl
        constructor
        · rintro ⟨-, hco⟩
          exact absurd hco (by simp [Option.elim])
        · rintro ⟨-, hlen1⟩
          rw [List.length_append] at hlen1
          have h0 : l.length = 0 := by simpa using hlen1
          exact absurd (List.length_eq_zero.1 h0) hl

/-- C2 witness: the concat clause applied to a concrete one-qualifier scan
(the free ball with one player standing on it): that player becomes owner,
the scan reports an acquisition, the player's team's active player is set, and
`old_owner` is the (absent) prior owner. -/
theorem claim_C2_witness :
    (scan none (500, 700) oneQualifierState.players
        ⟨none, none, oneQualifierState.teams, false⟩).owner = some 0
    ∧ (scan none (500, 700) oneQualifierState.players
        ⟨none, none, oneQualifierState.teams, false⟩).acquired = true := by
  have h := (claim_C2_acquisition none (500, 700) oneQualifierState.players none
      oneQualifierState.teams).2.2.1 [] (0, ⟨(500, 700), (0, -1), 0, 0⟩)
    (by norm_num +decide [oneQualifierState, withIdx, withIdxFrom, qualifies, len2, vsub,
      DRIBBLE_DIST_X])
  exact ⟨h.1, h.2.1⟩

/-- C2 counterexample: in a scan where the ball has NO prior owner and two
players qualify, the claim says the Velocity component is removed ("removed
exactly when the ball had no prior owner"), but the code leaves it in place:
`old_owner` ends the scan holding the first qualifier, so the removal is
skipped — and the resulting owner (the last qualifier) coexists with a
retained Velocity. -/
theorem claim_C2_counterexample :
    twoQualifierState.ballOwner = none
    ∧ (update_ball 120 (false, false) (0, 0) twoQualifierState).ballOwner = some 1
    ∧ (update_ball 120 (false, false) (0, 0) twoQualifierState).ballVel = some (0, 0) := by
  refine ⟨rfl, ?_, ?_⟩ <;>
    norm_num +decide [update_ball, ball_move, twoQualifierState, insert_ball_vector, scan, withIdx,
      withIdxFrom, scan_step, scan_ustep, qualifies, len2, vsub, dot, apply_acquisition,
      kick_phase, getPlayer, getTeam, setActive, setTimer, getPressed, setShootNow,
      ball_physics, DRAG, DRIBBLE_DIST_X, HALF_LEVEL_W, HALF_LEVEL_H, HALF_PITCH_H,
      HALF_GOAL_W, GOAL_WIDTH, LEVEL_W, LEVEL_H, HALF_PITCH_W, PITCH_BOUNDS_X,
      PITCH_BOUNDS_Y, GOAL_BOUNDS_X, GOAL_BOUNDS_Y, GOAL_DEPTH]

/-- C1 counterexample: the velocity-iff-ownerless invariant is NOT preserved
by `update_ball` on every state satisfying it: from a state with a free ball
(velocity present) and two players qualifying in the acquisition scan, the
tick ends with an owner (the second qualifier) AND a retained Velocity
component — the removal is skipped because `old_owner` ends the scan holding
the first qualifier rather than `None`. -/
theorem claim_C1_counterexample :
    PossessionInv twoQualifierState
    ∧ ¬ PossessionInv (update_ball 120 (false, false) (0, 0) twoQualifierState) := by
  constructor
  · simp [PossessionInv, twoQualifierState]
  · intro hInv
    have h1 : (update_ball 120 (false, false) (0, 0) twoQualifierState).ballOwner = some 1 := by
      norm_num +decide [update_ball, ball_move, twoQualifierState, insert_ball_vector, scan,
        withIdx, withIdxFrom, scan_step, scan_ustep, qualifies, len2, vsub, dot,
        apply_acquisition, kick_phase, getPlayer, getTeam, setActive, setTimer, getPressed,
        setShootNow, ball_physics, DRAG, DRIBBLE_DIST_X, HALF_LEVEL_W, HALF_LEVEL_H,
        HALF_PITCH_H, HALF_GOAL_W, GOAL_WIDTH, LEVEL_W, LEVEL_H, HALF_PITCH_W, PITCH_BOUNDS_X,
        PITCH_BOUNDS_Y, GOAL_BOUNDS_X, GOAL_BOUNDS_Y, GOAL_DEPTH]
    have h2 : (update_ball 120 (false, false) (0, 0) twoQualifierState).ballVel = some (0, 0) := by
      norm_num +decide [update_ball, ball_move, twoQualifierState, insert_ball_vector, scan,
        withIdx, withIdxFrom, scan_step, scan_ustep, qualifies, len2, vsub, dot,
        apply_acquisition, kick_phase, getPlayer, getTeam, setActive, setTimer, getPressed,
        setShootNow, ball_physics, DRAG, DRIBBLE_DIST_X, HALF_LEVEL_W, HALF_LEVEL_H,
        HALF_PITCH_H, HALF_GOAL_W, GOAL_WIDTH, LEVEL_W, LEVEL_H, HALF_PITCH_W, PITCH_BOUNDS_X,
        PITCH_BOUNDS_Y, GOAL_BOUNDS_X, GOAL_BOUNDS_Y, GOAL_DEPTH]
    rw [PossessionInv, h1, h2] at hInv
    simp at hInv

/-- C1 (amended): the ball carries a Velocity component iff the match has no
owner — established at a freshly constructed `Game`, preserved by
`check_goals` (whose reset rebuilds the ball with a velocity and clears
ownership), and preserved by `update_ball` PROVIDED at most one player
qualifies in the tick's acquisition scan (the phases other than `update_ball`
and the reset never write the ball's Velocity or the owner).  With two or more
qualifiers the invariant can break (see the counterexample). -/
theorem claim_C1_velocity_iff_ownerless :
    (∀ jit : ℕ → Vec, PossessionInv (game_new jit))
    ∧ (∀ (jit : ℕ → Vec) (s : GState), PossessionInv s → PossessionInv (check_goals jit s))
    ∧ (∀ (holdoff : ℤ) (pressed : Bool × Bool) (kickVel : Vec) (s : GState),
        PossessionInv s → (scan_qualifiers s).length ≤ 1 →
        PossessionInv (update_ball holdoff pressed kickVel s)) := by
  refine ⟨?_, ?_, ?_⟩
  · intro jit
    simp [PossessionInv, game_new, add_players, ball_start]
  · intro jit s h
    unfold check_goals
    by_cases h1 : s.scoreTimer - 1 = 0
    · rw [if_pos h1]
      simp [PossessionInv, reset, add_players, ball_start]
    · rw [if_neg h1]
      by_cases h2 : s.scoreTimer - 1 < 0 ∧ |s.ballPos.2 - HALF_LEVEL_H| > HALF_PITCH_H
      · rw [if_pos h2]
        simpa [PossessionInv] using h
      · rw [if_neg h2]
        simpa [PossessionInv] using h
  · intro ho pr kv s h hq
    have h1 : PossessionInv (insert_ball_vector (ball_move s).1 (ball_move s).2.2) :=
      phase1_inv s h
    have hfields := insert_ball_vector_fields (ball_move s).1 (ball_move s).2.2
    show PossessionInv (kick_phase pr kv (apply_acquisition ho
      (insert_ball_vector (ball_move s).1 (ball_move s).2.2)
      (scan (ball_move s).2.1 (insert_ball_vector (ball_move s).1 (ball_move s).2.2).ballPos
        (insert_ball_vector (ball_move s).1 (ball_move s).2.2).players
        ⟨(insert_ball_vector (ball_move s).1 (ball_move s).2.2).ballOwner, none,
          (insert_ball_vector (ball_move s).1 (ball_move s).2.2).teams, false⟩)))
    apply kick_phase_inv
    have hr : scan (ball_move s).2.1
        (insert_ball_vector (ball_move s).1 (ball_move s).2.2).ballPos
        (insert_ball_vector (ball_move s).1 (ball_move s).2.2).players
        ⟨(insert_ball_vector (ball_move s).1 (ball_move s).2.2).ballOwner, none,
          (insert_ball_vector (ball_move s).1 (ball_move s).2.2).teams, false⟩
        = (scan_qualifiers s).foldl scan_ustep
            ⟨(insert_ball_vector (ball_move s).1 (ball_move s).2.2).ballOwner, none,
              (insert_ball_vector (ball_move s).1 (ball_move s).2.2).teams, false⟩ := by
      rw [scan_eq_ufold, hfields.1, hfields.2.1]
      rfl
    unfold PossessionInv
    rw [apply_acquisition_ballVel, apply_acquisition_ballOwner, hr]
    rcases List.eq_nil_or_concat (scan_qualifiers s) with hnil | ⟨l, a, hcat⟩
    · rw [hnil]
      simpa using h1
    · rw [List.concat_eq_append] at hcat
      have hlen := hq
      rw [hcat, List.length_append] at hlen
      have hl : l = [] := List.length_eq_zero.1 (by simpa using hlen)
      subst hl
      rw [hcat]
      simp only [List.nil_append, List.foldl_cons, List.foldl_nil, scan_ustep]
      cases hbo : (insert_ball_vector (ball_move s).1 (ball_move s).2.2).ballOwner with
      | none => simp
      | some o =>
        have hv : (insert_ball_vector (ball_move s).1 (ball_move s).2.2).ballVel = none := by
          cases hvv : (insert_ball_vector (ball_move s).1 (ball_move s).2.2).ballVel with
          | none => rfl
          | some v => exact absurd (h1.1 (by simp [hvv])) (by simp [hbo])
        simp [hv]

/-- C7: `check_goals` decrements the score-freeze countdown; when the
decremented countdown is exactly `0` it performs the full reset (entities
rebuilt, ownership cleared, ball velocity restored, camera re-centred,
kickoff reassigned to the non-scoring team's first player); a goal is
detected only while the decremented countdown is negative and
`|ball.y - 700| > 622`, at which point the scoring team is `0` when the
ball's y is below half the level height (else `1`), that team's score is
incremented, and the countdown is set to `60`; otherwise the tick only
records the decremented countdown. -/
theorem claim_C7_check_goals (jit : ℕ → Vec) (s : GState) :
    (s.scoreTimer - 1 = 0 →
      check_goals jit s = reset jit { s with scoreTimer := s.scoreTimer - 1 }
      ∧ (check_goals jit s).ballOwner = none
      ∧ (check_goals jit s).ballVel = some (0, 0)
      ∧ (check_goals jit s).cameraFocus = (HALF_LEVEL_W, HALF_LEVEL_H)
      ∧ (check_goals jit s).kickoffPlayer = some (1 - s.scoringTeam)
      ∧ (s.scoringTeam ≤ 1 →
          ((getPlayer (check_goals jit s).players (1 - s.scoringTeam)).team : ℕ)
            = 1 - s.scoringTeam))
    ∧ (s.scoreTimer - 1 ≠ 0 → s.scoreTimer - 1 < 0 →
        |s.ballPos.2 - HALF_LEVEL_H| > HALF_PITCH_H →
        check_goals jit s =
          { s with scoreTimer := 60,
                   scoringTeam := if s.ballPos.2 < HALF_LEVEL_H then 0 else 1,
                   teams := bumpScore s.teams (if s.ballPos.2 < HALF_LEVEL_H then 0 else 1) })
    ∧ (s.scoreTimer - 1 ≠ 0 →
        ¬ (s.scoreTimer - 1 < 0 ∧ |s.ballPos.2 - HALF_LEVEL_H| > HALF_PITCH_H) →
        check_goals jit s = { s with scoreTimer := s.scoreTimer - 1 }) := by
  have hrange : List.range 7 = [0, 1, 2, 3, 4, 5, 6] := by decide
  refine ⟨?_, ?_, ?_⟩
  · intro h1
    have he : check_goals jit s = reset jit { s with scoreTimer := s.scoreTimer - 1 } := by
      unfold check_goals
      rw [if_pos h1]
    refine ⟨he, ?_, ?_, ?_, ?_, ?_⟩ <;> rw [he]
    · simp [reset, add_players, ball_start]
    · simp [reset, add_players, ball_start]
    · simp [reset, add_players, ball_start]
    · simp [reset, add_players, ball_start]
    · intro hst
      interval_cases h : s.scoringTeam <;>
        simp [reset, add_players, ball_start, hrange, getPlayer, build_player,
          withIdx, withIdxFrom, PLAYER_START_POS]
  · intro h1 h2 h3
    unfold check_goals
    rw [if_neg h1, if_pos ⟨h2, h3⟩]
  · intro h1 h2
    unfold check_goals
    rw [if_neg h1, if_neg h2]

/-- C7 witness: the reset clause applied at a concrete state whose countdown
reaches zero this tick. -/
theorem claim_C7_witness :
    (check_goals (fun _ => (0, 0)) { twoQualifierState with scoreTimer := 1 }).ballOwner = none
    ∧ (check_goals (fun _ => (0, 0)) { twoQualifierState with scoreTimer := 1 }).kickoffPlayer
        = some 0 :=
  have h := (claim_C7_check_goals (fun _ => (0, 0))
      { twoQualifierState with scoreTimer := 1 }).1 (by norm_num [twoQualifierState])
  ⟨h.2.1, by
    have := h.2.2.2.2.1
    simpa [twoQualifierState] using this⟩

/-- C9 counterexample: with the ball owned, the claim halves the effective
distance of players on the pressing team's ATTACKING side; the code halves it
on the team's OWN-GOAL side instead.  Concretely (team 0, which attacks
decreasing y): the attacking-side player 0 at distance 60 wins under the
claim's weighting (effective 30 vs 100), yet the code reassigns the active
player to the own-goal-side player 1 (code weighting: 50 effective vs 60). -/
theorem claim_C9_counterexample :
    (switch_players (true, false) switchState).teams.1.active = some 1
    ∧ spec_attacking_key (500, 700) true 0 (500, 640)
        < spec_attacking_key (500, 700) true 0 (500, 800) := by
  constructor
  · norm_num +decide [switch_players, switch_team, switchState, getPressed, getTeam, setActive,
      switch_key, switch_weight, pickMin, withIdx, withIdxFrom, len2, vsub]
  · norm_num +decide [spec_attacking_key, len2, vsub]

/-- C9 (amended): `switch_players` is a no-op during the kickoff freeze;
otherwise it processes team 0 then team 1, and for a team whose shoot control
is pressed this tick, which did not just shoot and is human, the active player
is reassigned to the teammate minimizing `cmp_dist_weighted`'s effective
distance to the ball, in which (whenever the ball has an owner) a player on
that team's OWN-GOAL side of the ball has its effective distance halved — for
team 0 (attacking decreasing y) players with y above the ball's, for team 1
players with y below it — and no halving applies when the ball is ownerless. -/
theorem claim_C9_switch_players :
    (∀ (pressed : Bool × Bool) (s : GState), s.kickoffPlayer.isSome →
      switch_players pressed s = s)
    ∧ (∀ (pressed : Bool × Bool) (s : GState), s.kickoffPlayer = none →
      switch_players pressed s = switch_team pressed (switch_team pressed s 0) 1)
    ∧ (∀ (pressed : Bool × Bool) (s : GState) (t : Fin 2) (m : ℕ × Player),
        ¬ getPressed s.shootNow t = true → (getTeam s.teams t).human = true →
        getPressed pressed t = true →
        pickMin (fun ip => switch_key s.ballPos
            (if s.ballOwner.isSome then 2 * ((t : ℕ) : ℚ) - 1 else 0) ip.2.pos) none
          ((withIdx s.players).filter (fun ip => decide (ip.2.team = t))) = some m →
        (getTeam (switch_team pressed s t).teams t).active = some m.1
        ∧ m ∈ (withIdx s.players).filter (fun ip => decide (ip.2.team = t))
        ∧ ∀ x ∈ (withIdx s.players).filter (fun ip => decide (ip.2.team = t)),
            switch_key s.ballPos (if s.ballOwner.isSome then 2 * ((t : ℕ) : ℚ) - 1 else 0)
                m.2.pos
              ≤ switch_key s.ballPos
                  (if s.ballOwner.isSome then 2 * ((t : ℕ) : ℚ) - 1 else 0) x.2.pos)
    ∧ (∀ dest v : Vec, (switch_weight dest (2 * (0 : ℚ) - 1) v = 2 ↔ dest.2 < v.2))
    ∧ (∀ dest v : Vec, (switch_weight dest (2 * (1 : ℚ) - 1) v = 2 ↔ v.2 < dest.2))
    ∧ (∀ dest v : Vec, switch_weight dest 0 v = 1) := by
  refine ⟨?_, ?_, ?_, ?_, ?_, ?_⟩
  · intro pressed s hk
    rw [switch_players, if_pos hk]
  · intro pressed s hk
    rw [switch_players, if_neg (by simp [hk])]
  · intro pressed s t m h1 h2 h3 hpick
    have hcond : ¬ getPressed s.shootNow t = true
        ∧ (getTeam s.teams t).human = true ∧ getPressed pressed t = true := ⟨h1, h2, h3⟩
    rw [switch_team, if_pos hcond]
    obtain ⟨hmem, hmin, -⟩ := pickMin_spec _ _ _ _ hpick
    refine ⟨?_, ?_, fun x hx => hmin x hx⟩
    · rw [getTeam_setActive, hpick]
      rfl
    · rcases hmem with hc | hc
      · cases hc
      · exact hc
  · intro dest v
    unfold switch_weight
    have hcond : ((v.2 - dest.2) * (2 * (0 : ℚ) - 1) < 0) ↔ dest.2 < v.2 := by
      constructor <;> intro h <;> nlinarith
    by_cases hc : dest.2 < v.2
    · rw [if_pos (hcond.2 hc)]
      simp [hc]
    · rw [if_neg (fun hh => hc (hcond.1 hh))]
      norm_num [hc]
  · intro dest v
    unfold switch_weight
    have hcond : ((v.2 - dest.2) * (2 * (1 : ℚ) - 1) < 0) ↔ v.2 < dest.2 := by
      constructor <;> intro h <;> nlinarith
    by_cases hc : v.2 < dest.2
    · rw [if_pos (hcond.2 hc)]
      simp [hc]
    · rw [if_neg (fun hh => hc (hcond.1 hh))]
      norm_num [hc]
  · intro dest v
    unfold switch_weight
    norm_num

/-- C9 witness: the reassignment clause applied at the concrete switching
state (the code's weighted minimum there is player 1). -/
theorem claim_C9_witness :
    (getTeam (switch_team (true, false) switchState 0).teams 0).active = some 1 :=
  (claim_C9_switch_players.2.2.1 (true, false) switchState 0
    (1, ⟨(500, 800), (0, -1), 0, 0⟩)
    (by norm_num [switchState, getPressed])
    (by norm_num [switchState, getTeam])
    (by norm_num [getPressed])
    (by norm_num +decide [switchState, switch_key, switch_weight, pickMin, withIdx, withIdxFrom,
      len2, vsub])).1

/-- C5: lead selection — a defender is eligible exactly when it is on the
defending team, its Timer is 0 (the code tests `timer <= 0`; timers are never
negative), it is not the human defending team's active player, and its mark is
still of player type; the interleaving of upfield candidates `[A, B]` with
downfield candidates `[C]` (pad with two empties, alternate starting upfield,
drop empties) ranks them `[A, C, B]`; the player at rank 0 receives lead
distance 10, rank 1 receives 50 exactly when the second-lead difficulty flag
is set, and all other ranks receive none; and `lead_ranking` is the
interleave of the upfield/downfield partition of the eligible players sorted
nearest-first to the ball owner. -/
theorem claim_C5_lead_assignment :
    (∀ (dt : Fin 2) (ti : TeamInfo) (p : BPlayer), 0 ≤ p.timer →
      (lead_eligible dt ti p ↔
        (p.team = dt ∧ p.timer = 0 ∧ (¬ ti.human = true ∨ ti.active ≠ some p.id)
          ∧ p.markIsPlayer = true)))
    ∧ (∀ A B C : BPlayer, interleave [A, B] [C] = [A, C, B])
    ∧ (∀ (secondLead : Bool) (ranking : List BPlayer) (n : ℕ) (p : BPlayer),
        (withIdx ranking).filter (fun np => decide (np.2.id = p.id)) = [(n, p)] →
        lead_assign secondLead ranking p.id =
          ((if n = 0 then some LEAD_DISTANCE_1
            else if n = 1 ∧ secondLead then some LEAD_DISTANCE_2 else none), some n))
    ∧ (∀ (dt : Fin 2) (ti : TeamInfo) (ownerPos : Vec) (ps : List BPlayer),
        lead_ranking dt ti ownerPos ps =
          interleave
            (((ps.filter (fun p => decide (lead_eligible dt ti p))).mergeSort
              (fun a b =>
                decide (len2 (vsub a.pos ownerPos) ≤ len2 (vsub b.pos ownerPos)))).filter
              (fun p => upfield dt ownerPos p))
            (((ps.filter (fun p => decide (lead_eligible dt ti p))).mergeSort
              (fun a b =>
                decide (len2 (vsub a.pos ownerPos) ≤ len2 (vsub b.pos ownerPos)))).filter
              (fun p => ! upfield dt ownerPos p))) := by
  refine ⟨?_, ?_, ?_, fun dt ti ownerPos ps => rfl⟩
  · intro dt ti p h0
    unfold lead_eligible
    constructor
    · rintro ⟨ht, htm, hact, hm⟩
      refine ⟨ht, le_antisymm htm h0, ?_, hm⟩
      rcases hact with h | h | h
      · exact Or.inl h
      · exact Or.inr (by rw [h]; simp)
      · exact Or.inr h
    · rintro ⟨ht, htm, hact, hm⟩
      refine ⟨ht, le_of_eq htm, ?_, hm⟩
      rcases hact with h | h
      · exact Or.inl h
      · exact Or.inr (Or.inr h)
  · intro A B C
    rfl
  · intro secondLead ranking n p h
    unfold lead_assign
    rw [h]
    rfl

/-- C5 witness: the rank-to-lead-distance clause applied to a concrete
one-element ranking with the second-lead flag set: rank 0 receives lead
distance 10. -/
theorem claim_C5_witness :
    lead_assign true [⟨0, 0, 0, true, (0, 0)⟩] 0 = (some LEAD_DISTANCE_1, some 0) :=
  claim_C5_lead_assignment.2.2.1 true [⟨0, 0, 0, true, (0, 0)⟩] 0 ⟨0, 0, 0, true, (0, 0)⟩
    (by norm_num [withIdx, withIdxFrom, List.filter])

/-- C1 witness: the preservation clause applied at a concrete state in which
exactly one player qualifies in the scan. -/
theorem claim_C1_witness :
    PossessionInv (update_ball 120 (false, false) (0, 0) oneQualifierState) :=
  claim_C1_velocity_iff_ownerless.2.2 120 (false, false) (0, 0) oneQualifierState
    (by simp [PossessionInv, oneQualifierState])
    (by norm_num +decide [scan_qualifiers, ball_move, oneQualifierState, withIdx, withIdxFrom,
      qualifies, len2, vsub, ball_physics, DRAG, DRIBBLE_DIST_X, HALF_LEVEL_W, HALF_LEVEL_H,
      HALF_PITCH_H, HALF_GOAL_W, GOAL_WIDTH, LEVEL_W, LEVEL_H, HALF_PITCH_W, PITCH_BOUNDS_X,
      PITCH_BOUNDS_Y, GOAL_BOUNDS_X, GOAL_BOUNDS_Y, GOAL_DEPTH])

end Soccer
